import Mathlib

/-!
Verification of the crosswithfriends backend core against its natural-language
specification.

The development shallowly embeds the TypeScript sources of the backend:

* socket payload trees and the sentinel-timestamp substitution
  (packages/backend/src/websocket/socket-manager.ts, assignTimestamp);
* the game / room event model and the state projections
  (game.service.ts reconstructGameState, room.service.ts reconstructRoomState);
* the solve recorder (solve.service.ts recordSolve, calculateSquareCounts)
  over the puzzle_solves schema of models/schema.ts;
* the event store (game-event.repository.ts addEvent / getEvents over the
  game_events table with its UNIQUE(gid, sequence_number) index);
* the persist-then-broadcast socket pipeline (socket-manager.ts addGameEvent
  and addRoomEvent);
* the puzzle catalog (puzzle.repository.ts listPublic,
  puzzle.service.ts createPuzzle / extractNumericPid).

Machine integers of the source are modelled as Int / Nat (the quantities
involved -- timestamps, counters, sequence numbers -- stay far below any
overflow boundary on the inputs considered).  Fallible code is modelled with
Option.  JavaScript Map / Set / object semantics are modelled by
insertion-ordered association lists, as noted at each definition.
-/

/-! ## JSON-like socket payloads (socket-manager.ts)

Client events arrive as arbitrary JSON trees.  SVal models a JavaScript
value: null, boolean, number, string, array, or object (an insertion-ordered
list of key/value fields; JavaScript objects cannot carry duplicate keys,
though the model does not need that restriction).
-/

inductive SVal : Type where
  | null : SVal
  | bool (b : Bool) : SVal
  | num (n : Int) : SVal
  | str (s : String) : SVal
  | arr (xs : List SVal) : SVal
  | obj (fs : List (String × SVal)) : SVal
deriving Repr, Inhabited

/-- Property lookup on an object: the value of the first field named k. -/
def lookupField : List (String × SVal) → String → Option SVal
  | [], _ => none
  | (k, v) :: fs, key => if k = key then some v else lookupField fs key

/-- Test from the source line `event[.sv] === timestamp`: the object has a
field named ".sv" whose value is the string "timestamp". -/
def isTimestampSentinel (fs : List (String × SVal)) : Bool :=
  match lookupField fs ".sv" with
  | some (.str s) => s == "timestamp"
  | _ => false

mutual

/-- Embeds assignTimestamp of socket-manager.ts: walk the payload tree and
replace every object whose ".sv" field is the string "timestamp" with the
current wall-clock milliseconds.  Primitives are returned unchanged; arrays
and objects are rebuilt (the source clones via event.constructor() and a
for-in loop, which preserves arrays and plain objects alike). -/
def assignTimestamp (now : Int) : SVal → SVal
  | .obj fs => if isTimestampSentinel fs then .num now else .obj (assignTimestampFields now fs)
  | .arr xs => .arr (assignTimestampArr now xs)
  | v => v
termination_by v => sizeOf v

/-- Element-wise recursion of assignTimestamp over an array payload. -/
def assignTimestampArr (now : Int) : List SVal → List SVal
  | [] => []
  | x :: xs => assignTimestamp now x :: assignTimestampArr now xs
termination_by xs => sizeOf xs

/-- Field-wise recursion of assignTimestamp over an object payload. -/
def assignTimestampFields (now : Int) : List (String × SVal) → List (String × SVal)
  | [] => []
  | (k, v) :: fs => (k, assignTimestamp now v) :: assignTimestampFields now fs
termination_by fs => sizeOf fs

end

mutual

/-- Modelled from the spec text for C9 (refinement side): every occurrence
anywhere in the payload tree of an object whose ".sv" field equals
"timestamp" is replaced with the server wall-clock milliseconds, and no
other part of the payload is changed. -/
def svalSpecReplace (now : Int) : SVal → SVal
  | .obj fs =>
      if isTimestampSentinel fs then .num now
      else .obj (svalSpecReplaceFields now fs)
  | .arr xs => .arr (svalSpecReplaceArr now xs)
  | .null => .null
  | .bool b => .bool b
  | .num n => .num n
  | .str s => .str s
termination_by v => sizeOf v

/-- Array part of the spec-side replacement. -/
def svalSpecReplaceArr (now : Int) : List SVal → List SVal
  | [] => []
  | x :: xs => svalSpecReplace now x :: svalSpecReplaceArr now xs
termination_by xs => sizeOf xs

/-- Object part of the spec-side replacement. -/
def svalSpecReplaceFields (now : Int) : List (String × SVal) → List (String × SVal)
  | [] => []
  | (k, v) :: fs => (k, svalSpecReplace now v) :: svalSpecReplaceFields now fs
termination_by fs => sizeOf fs

end

mutual

/-- True when some subtree is a sentinel object (an object whose ".sv" field
equals "timestamp"). -/
def svalHasSentinel : SVal → Bool
  | .obj fs => isTimestampSentinel fs || svalHasSentinelFields fs
  | .arr xs => svalHasSentinelArr xs
  | _ => false
termination_by v => sizeOf v

/-- Sentinel search over an array payload. -/
def svalHasSentinelArr : List SVal → Bool
  | [] => false
  | x :: xs => svalHasSentinel x || svalHasSentinelArr xs
termination_by xs => sizeOf xs

/-- Sentinel search over object fields. -/
def svalHasSentinelFields : List (String × SVal) → Bool
  | [] => false
  | (_, v) :: fs => svalHasSentinel v || svalHasSentinelFields fs
termination_by fs => sizeOf fs

end

/-- Structural induction over SVal with membership hypotheses for the nested
lists, packaged as a recursor usable in proofs below. -/
def SVal.recOnMem (P : SVal → Prop) (t : SVal)
    (hnull : P .null) (hbool : ∀ b, P (.bool b)) (hnum : ∀ n, P (.num n))
    (hstr : ∀ s, P (.str s))
    (harr : ∀ xs, (∀ x ∈ xs, P x) → P (.arr xs))
    (hobj : ∀ fs, (∀ kv ∈ fs, P kv.2) → P (.obj fs)) : P t :=
  match t with
  | .null => hnull
  | .bool b => hbool b
  | .num n => hnum n
  | .str s => hstr s
  | .arr xs =>
      harr xs (fun x _ => SVal.recOnMem P x hnull hbool hnum hstr harr hobj)
  | .obj fs =>
      hobj fs (fun kv _ => SVal.recOnMem P kv.2 hnull hbool hnum hstr harr hobj)
termination_by sizeOf t
decreasing_by
  · rename_i hx
    have h1 := List.sizeOf_lt_of_mem hx
    simp only [SVal.arr.sizeOf_spec]
    omega
  · rename_i kv hkv
    have h1 := List.sizeOf_lt_of_mem hkv
    obtain ⟨k, v⟩ := kv
    simp only [SVal.obj.sizeOf_spec, Prod.mk.sizeOf_spec] at *
    omega

/-! ## Game events and the game state projection (shared/src/types/game.ts,
game.service.ts) -/

/-- Clock actions carried by a clock_update event. -/
inductive ClockAction : Type where
  | start | pause | resume
deriving DecidableEq, Repr

/-- One cell of the grid.  The source CellData also carries flags (bad, good,
revealed, pencil) and clue numbers that the backend projector never touches;
the embedding keeps the fields the projector and the create event use. -/
structure CellData where
  value : Option String := none
  black : Bool := false
deriving DecidableEq, Repr

/-- The grid of a game, row major. -/
abbrev GridData := List (List CellData)

/-- The game event union of shared/src/types/game.ts.  Every event carries its
client timestamp (ms).  The create payload keeps the fields the projector
reads (pid and the initial game grid / solution); info, clues, circles and
shades are copied through verbatim by the source and are omitted.  cell_check
and cell_reveal may carry a scope list of (row, col) cells at runtime (the
solve service reads params.scope), hence the Option scope field. -/
inductive GameEvent : Type where
  | create (timestamp : Int) (pid : String) (grid : GridData)
      (solution : List (List String))
  | cellFill (timestamp : Int) (row col : Nat) (value : String)
  | cellClear (timestamp : Int) (row col : Nat)
  | cellCheck (timestamp : Int) (row col : Nat) (scope : Option (List (Nat × Nat)))
  | cellReveal (timestamp : Int) (row col : Nat) (scope : Option (List (Nat × Nat)))
  | cursorMove (timestamp : Int) (userId : String) (r c : Nat)
  | chatMessage (timestamp : Int) (userId displayName message : String)
  | clockUpdate (timestamp : Int) (action : ClockAction) (totalTime : Option Int)
  | puzzleSolved (timestamp : Int) (solvedAt timeTaken : Int)
deriving DecidableEq, Repr

/-- Clock portion of the game state. -/
structure ClockState where
  lastUpdated : Int
  totalTime : Int
  trueTotalTime : Int
  paused : Bool
deriving DecidableEq, Repr

/-- One chat message of the projected game state. -/
structure ChatMsg where
  message : String
  userId : String
  displayName : String
  timestamp : Int
deriving DecidableEq, Repr

/-- Projected game state (reconstructGameState of game.service.ts).  The users
map is initialised empty and never written by the source projector; it is
omitted here.  The game field (grid and solution) is taken from the create
event. -/
structure GameState where
  gid : String
  pid : String
  grid : GridData
  solution : List (List String)
  solved : Bool
  clock : ClockState
  messages : List ChatMsg
deriving DecidableEq, Repr

/-- True for a create event (the projector searches for the first one). -/
def GameEvent.isCreate : GameEvent → Bool
  | .create .. => true
  | _ => false

/-- One step of the event loop of reconstructGameState.  The source handles
only puzzle_solved, chat_message and clock_update; every other event type
(including cell_fill, cell_clear, cell_check, cell_reveal and cursor_move)
falls through with no effect -- the source comments that it is a simplified
version and that the full implementation would apply all event reducers. -/
def applyGameEvent (s : GameState) : GameEvent → GameState
  | .puzzleSolved _ _ _ => { s with solved := true }
  | .chatMessage ts uid dn msg =>
      { s with messages := s.messages ++ [⟨msg, uid, dn, ts⟩] }
  | .clockUpdate _ action t? =>
      let pausedNew : Bool :=
        match action with
        | .start => false
        | .resume => false
        | .pause => true
      let c1 : ClockState := { s.clock with paused := pausedNew }
      let c2 : ClockState :=
        match t? with
        | some t => { c1 with totalTime := t }
        | none => c1
      { s with clock := c2 }
  | _ => s

/-- Embeds reconstructGameState of game.service.ts: find the first create
event (none is an error in the source, modelled as Option), initialise the
state from it (clock paused at the create timestamp, totalTime 0), then fold
every event of the list through applyGameEvent. -/
def reconstructGameState (gid : String) (events : List GameEvent) :
    Option GameState :=
  match events.find? GameEvent.isCreate with
  | some (.create ts pid grid sol) =>
      some (events.foldl applyGameEvent
        { gid := gid, pid := pid, grid := grid, solution := sol,
          solved := false,
          clock := { lastUpdated := ts, totalTime := 0, trueTotalTime := 0,
                     paused := true },
          messages := [] })
  | _ => none

/-! ## Solve statistics (solve.service.ts calculateSquareCounts) -/

/-- JavaScript Set.add on an insertion-ordered list: no-op when the key is
already present, else append.  The source keys its sets by the string
"row,col", which encodes the pair injectively; the embedding keys by the pair
itself. -/
def insertKey (l : List (Nat × Nat)) (k : Nat × Nat) : List (Nat × Nat) :=
  if k ∈ l then l else l ++ [k]

/-- Scope of a cell event: params.scope when present, else the single
(row, col) -- the line `params.scope ?? [row, col]` of the source. -/
def scopeCells (row col : Nat) (scope : Option (List (Nat × Nat))) :
    List (Nat × Nat) :=
  scope.getD [(row, col)]

/-- Accumulating loop of calculateSquareCounts: walk the events keeping the
revealed-cells set and the checked-cells set. -/
def squareCountsAcc (rev chk : List (Nat × Nat)) :
    List GameEvent → List (Nat × Nat) × List (Nat × Nat)
  | [] => (rev, chk)
  | .cellReveal _ r c sc :: rest =>
      squareCountsAcc ((scopeCells r c sc).foldl insertKey rev) chk rest
  | .cellCheck _ r c sc :: rest =>
      squareCountsAcc rev ((scopeCells r c sc).foldl insertKey chk) rest
  | _ :: rest => squareCountsAcc rev chk rest

/-- Embeds calculateSquareCounts of solve.service.ts: the sizes of the two
sets of distinct cells touched by cell_reveal and cell_check events. -/
def calculateSquareCounts (events : List GameEvent) : Nat × Nat :=
  let acc := squareCountsAcc [] [] events
  (acc.1.length, acc.2.length)

/-- Cells a single event contributes to the revealed set. -/
def revealCellsOf : GameEvent → List (Nat × Nat)
  | .cellReveal _ r c sc => scopeCells r c sc
  | _ => []

/-- Cells a single event contributes to the checked set. -/
def checkCellsOf : GameEvent → List (Nat × Nat)
  | .cellCheck _ r c sc => scopeCells r c sc
  | _ => []

/-- Modelled from the spec text for C6 (refinement side): the set of distinct
(row, col) cells touched by cell_reveal events, each taken with its scope
list when present and its single (row, col) otherwise. -/
def specRevealedCells (events : List GameEvent) : Finset (Nat × Nat) :=
  ((events.map revealCellsOf).flatten).toFinset

/-- Spec side for the checked cells, as for specRevealedCells. -/
def specCheckedCells (events : List GameEvent) : Finset (Nat × Nat) :=
  ((events.map checkCellsOf).flatten).toFinset

/-! ## Room events and the room state projection (room.service.ts) -/

/-- The room event union (shared room.ts).  Settings values are opaque to the
backend (Record of string to unknown); the embedding models them as strings. -/
inductive RoomEvent : Type where
  | userJoin (timestamp : Int) (userId displayName : String)
  | userLeave (timestamp : Int) (userId : String)
  | chatMessage (timestamp : Int) (userId displayName message : String)
  | roomSettingsUpdate (timestamp : Int) (settings : List (String × String))
deriving DecidableEq, Repr

/-- A user entry of the projected room state. -/
structure RoomUser where
  userId : String
  displayName : String
  joinedAt : Int
deriving DecidableEq, Repr

/-- Projected room state (reconstructRoomState of room.service.ts): the room
id, the user list (values of the user map in insertion order) and the merged
settings object.  The source RoomState carries no chat message list. -/
structure RoomState where
  rid : String
  users : List RoomUser
  settings : List (String × String)
deriving DecidableEq, Repr

/-- JavaScript Map.set on an insertion-ordered association list: replace in
place when the key exists, else append. -/
def mapSet (m : List (String × RoomUser)) (k : String) (v : RoomUser) :
    List (String × RoomUser) :=
  if m.any (fun kv => kv.1 == k) then
    m.map (fun kv => if kv.1 == k then (k, v) else kv)
  else m ++ [(k, v)]

/-- JavaScript Map.delete. -/
def mapDelete (m : List (String × RoomUser)) (k : String) :
    List (String × RoomUser) :=
  m.filter (fun kv => kv.1 != k)

/-- JavaScript object spread merge of two settings objects (keys of a in
order, values overridden by b when present, then new keys of b in order). -/
def objMerge (a b : List (String × String)) : List (String × String) :=
  a.map (fun kv =>
    match b.find? (fun kv2 => kv2.1 == kv.1) with
    | some kv2 => (kv.1, kv2.2)
    | none => kv)
  ++ b.filter (fun kv => !(a.any (fun kv2 => kv2.1 == kv.1)))

/-- One step of the event loop of reconstructRoomState, acting on the user
map and the settings accumulator.  The source handles user_join, user_leave
and room_settings_update; chat_message (and anything else) falls through
with no effect. -/
def roomStep (acc : List (String × RoomUser) × List (String × String)) :
    RoomEvent → List (String × RoomUser) × List (String × String)
  | .userJoin ts uid dn => (mapSet acc.1 uid ⟨uid, dn, ts⟩, acc.2)
  | .userLeave _ uid => (mapDelete acc.1 uid, acc.2)
  | .roomSettingsUpdate _ ps => (acc.1, objMerge acc.2 ps)
  | .chatMessage _ _ _ _ => acc

/-- Accumulator of reconstructRoomState: fold the events from the empty user
map and empty settings. -/
def roomAcc (events : List RoomEvent) :
    List (String × RoomUser) × List (String × String) :=
  events.foldl roomStep ([], [])

/-- Embeds reconstructRoomState of room.service.ts. -/
def reconstructRoomState (rid : String) (events : List RoomEvent) : RoomState :=
  let acc := roomAcc events
  { rid := rid, users := acc.1.map (fun kv => kv.2), settings := acc.2 }

/-! ## The solve recorder (solve.service.ts, models/schema.ts)

The puzzle_solves table of models/schema.ts has primary key id and NO unique
index on (pid, gid) -- the repository technical spec prescribes
UNIQUE(pid, gid) and the catch branch of recordSolve assumes such an index
"if it exists", but the schema does not declare it.  The embedding therefore
lets every insert succeed.
-/

/-- A row of the puzzle_solves table. -/
structure PuzzleSolve where
  id : String
  pid : String
  gid : String
  solvedAt : Int
  timeTakenSeconds : Int
  revealedSquaresCount : Nat
  checkedSquaresCount : Nat
deriving DecidableEq, Repr

/-- The relational state the solve recorder touches: the puzzle_solves rows
and the times_solved counter column of the puzzles table (an association
list pid to counter). -/
structure SolveStore where
  solves : List PuzzleSolve
  timesSolved : List (String × Nat)
deriving DecidableEq, Repr

/-- Embeds PuzzleSolveRepository.findByPidAndGid: first row matching
(pid, gid). -/
def findByPidAndGid (db : SolveStore) (pid gid : String) : Option PuzzleSolve :=
  db.solves.find? (fun r => r.pid == pid && r.gid == gid)

/-- Embeds PuzzleRepository.incrementSolveCount: UPDATE puzzles SET
times_solved = times_solved + 1 WHERE pid = ? (a no-op when no row has the
pid, as in SQL). -/
def incrementSolveCount (counters : List (String × Nat)) (pid : String) :
    List (String × Nat) :=
  counters.map (fun kv => if kv.1 == pid then (kv.1, kv.2 + 1) else kv)

/-- Committed effect of one recordSolve transaction of solve.service.ts under
READ COMMITTED.  checkDb is the committed store the existence check (step a)
read; commitDb is the committed store at commit time.  When the check saw a
row for (pid, gid) the transaction commits nothing (early return).  Otherwise
it inserts the solve row and increments times_solved in the same transaction;
because the schema declares no unique index on (pid, gid), the insert
succeeds even when another transaction inserted the same (pid, gid) between
the check and the commit.  A serialized call passes the same store for both
arguments. -/
def recordSolveTxn (checkDb commitDb : SolveStore) (id pid gid : String)
    (solvedAt timeToSolve : Int) (rev chk : Nat) : SolveStore :=
  if (findByPidAndGid checkDb pid gid).isSome then commitDb
  else
    { solves := commitDb.solves ++
        [⟨id, pid, gid, solvedAt, timeToSolve, rev, chk⟩],
      timesSolved := incrementSolveCount commitDb.timesSolved pid }

/-- Embeds SolveService.recordSolve run with no concurrent writer: the
transaction checks and commits against the same committed store.  The square
counts are computed from the game event stream by calculateSquareCounts. -/
def recordSolve (db : SolveStore) (id pid gid : String)
    (solvedAt timeToSolve : Int) (events : List GameEvent) : SolveStore :=
  let counts := calculateSquareCounts events
  recordSolveTxn db db id pid gid solvedAt timeToSolve counts.1 counts.2

/-! ## The event store (models/schema.ts, game-event.repository.ts,
room-event.repository.ts)

addEvent runs a transaction that reads MAX(sequence_number) for the stream
and inserts the event with that value plus one; the UNIQUE(gid,
sequence_number) index rejects an insert whose sequence number was taken
meanwhile, and the repository retries the whole transaction.  The committed
effect of every successful append is therefore exactly: insert with
sequence number (current committed maximum for the stream) + 1.  The model
below applies that committed effect; store state is the list of rows in
insertion order.
-/

/-- A row of the game_events table. -/
structure GameEventRecord where
  gid : String
  sequenceNumber : Nat
  eventType : String
  eventPayload : SVal
  userId : Option String
  timestamp : Int
  version : Nat

/-- An insert request for the game_events table: NewGameEvent with id and
sequence_number omitted (the repository assigns them). -/
structure NewGameEvent where
  gid : String
  eventType : String
  eventPayload : SVal
  userId : Option String
  timestamp : Int
  version : Nat

/-- Embeds getNextSequenceNumber of game-event.repository.ts: the maximal
sequence number among the rows of the stream, 0 when the stream is empty
(the source reads ORDER BY sequence_number DESC LIMIT 1). -/
def getNextSequenceNumber (store : List GameEventRecord) (gid : String) : Nat :=
  (store.filter (fun r => r.gid == gid)).foldl
    (fun m r => max m r.sequenceNumber) 0

/-- Embeds the committed effect of GameEventRepository.addEvent: insert the
event with sequence number MAX(seq for the stream) + 1. -/
def addEvent (store : List GameEventRecord) (data : NewGameEvent) :
    List GameEventRecord :=
  store ++ [{ gid := data.gid,
              sequenceNumber := getNextSequenceNumber store data.gid + 1,
              eventType := data.eventType,
              eventPayload := data.eventPayload,
              userId := data.userId,
              timestamp := data.timestamp,
              version := data.version }]

/-- Ordering used by getEvents: ascending sequence number. -/
def seqLe (a b : GameEventRecord) : Prop :=
  a.sequenceNumber ≤ b.sequenceNumber

instance : DecidableRel seqLe := fun a b => by
  unfold seqLe; infer_instance

/-- Embeds getEventsWithSequence / getEvents of game-event.repository.ts:
SELECT rows of the stream ORDER BY sequence_number ASC. -/
def getEventsWithSequence (store : List GameEventRecord) (gid : String) :
    List GameEventRecord :=
  (store.filter (fun r => r.gid == gid)).insertionSort seqLe

/-- A whole series of appends applied to a store. -/
def applyAppends (store : List GameEventRecord) (reqs : List NewGameEvent) :
    List GameEventRecord :=
  reqs.foldl addEvent store

/-! ## The socket pipeline (socket-manager.ts)

SocketManager.addGameEvent / addRoomEvent take a raw client payload, run
assignTimestamp over it, await the repository append, and only then emit
the event to the subscribers of the stream room.  A thrown append error
propagates before the emit statement runs.  The model makes the append
outcome explicit with a dbUp flag (the injected store can fail); the result
carries the new store, the list of emitted frames and an error flag.
-/

/-- A frame emitted to subscribers. -/
inductive EmitMsg : Type where
  | gameEvent (gid : String) (payload : SVal)
  | roomEvent (rid : String) (payload : SVal)

/-- The type field of an event payload (gameEvent.type in the source). -/
def svalStrField (v : SVal) (k : String) : Option String :=
  match v with
  | .obj fs =>
      match lookupField fs k with
      | some (.str s) => some s
      | _ => none
  | _ => none

/-- A numeric field of an event payload (gameEvent.timestamp). -/
def svalNumField (v : SVal) (k : String) : Option Int :=
  match v with
  | .obj fs =>
      match lookupField fs k with
      | some (.num n) => some n
      | _ => none
  | _ => none

/-- Embeds SocketManager.addGameEvent: substitute sentinel timestamps, append
to the game_events store, and on success emit the stored payload to the
game room.  When the store is unavailable the append throws and nothing is
emitted (error flag true, store unchanged). -/
def socketAddGameEvent (dbUp : Bool) (now : Int)
    (store : List GameEventRecord) (gid : String) (event : SVal) :
    List GameEventRecord × List EmitMsg × Bool :=
  let ge := assignTimestamp now event
  if dbUp then
    (addEvent store
      { gid := gid,
        eventType := (svalStrField ge "type").getD "",
        eventPayload := ge,
        userId := svalStrField ge "userId",
        timestamp := (svalNumField ge "timestamp").getD 0,
        version := 1 },
     [.gameEvent gid ge], false)
  else (store, [], true)

/-- A row of the room_events table (no version column). -/
structure RoomEventRecord where
  rid : String
  sequenceNumber : Nat
  eventType : String
  eventPayload : SVal
  userId : Option String
  timestamp : Int

/-- Committed effect of RoomEventRepository.addEvent, as for game events. -/
def addRoomEventRecord (store : List RoomEventRecord) (rid : String)
    (eventType : String) (payload : SVal) (userId : Option String)
    (ts : Int) : List RoomEventRecord :=
  store ++ [{ rid := rid,
              sequenceNumber := ((store.filter (fun r => r.rid == rid)).foldl
                (fun m r => max m r.sequenceNumber) 0) + 1,
              eventType := eventType,
              eventPayload := payload,
              userId := userId,
              timestamp := ts }]

/-- Embeds SocketManager.addRoomEvent, as socketAddGameEvent. -/
def socketAddRoomEvent (dbUp : Bool) (now : Int)
    (store : List RoomEventRecord) (rid : String) (event : SVal) :
    List RoomEventRecord × List EmitMsg × Bool :=
  let re := assignTimestamp now event
  if dbUp then
    (addRoomEventRecord store rid ((svalStrField re "type").getD "") re
      (svalStrField re "userId") ((svalNumField re "timestamp").getD 0),
     [.roomEvent rid re], false)
  else (store, [], true)

/-! ## The puzzle catalog (puzzle.repository.ts, puzzle.service.ts)

listPublic builds a raw SQL query: WHERE is_public = true, optionally
(content info type) = ANY(sizeFilter), and one ILIKE condition per
whitespace token of the search string; ORDER BY pid_numeric DESC NULLS LAST;
LIMIT / OFFSET.  pid_numeric is a TEXT column, so the ordering is the text
ordering of the digit strings.  The embedding keeps, per puzzle row, the
columns the query touches.
-/

/-- A row of the puzzles table, restricted to the columns listPublic and
createPuzzle touch; title, author and ptype stand for content info title,
author and type. -/
structure PuzzleRow where
  id : String
  pid : String
  pidNumeric : Option String
  isPublic : Bool
  timesSolved : Nat
  title : String
  author : String
  ptype : String
deriving DecidableEq, Repr

/-- ASCII lowering of a string, one character at a time (the comparison
underlying SQL ILIKE). -/
def lowerStr (s : String) : String :=
  ⟨s.data.map Char.toLower⟩

/-- SQL LIKE matching of a pattern against a text, both case-folded
(ILIKE): a backslash (the default PostgreSQL escape character) makes the
following pattern character match itself literally up to case, percent
matches any sequence of characters (the rest of the pattern must then
match some suffix of the text), underscore matches exactly one character,
and anything else matches itself up to case.  A pattern consisting of a
lone trailing backslash is rejected by PostgreSQL ("LIKE pattern must not
end with escape character"); it is modelled as matching nothing, and it is
unreachable for the percent-wrapped patterns listPublic builds, which
always end with a percent that absorbs a preceding escape.  The recursion
is structural in the pattern. -/
def likeMatch : List Char → List Char → Bool
  | [], t => t.isEmpty
  | ['\\'], _ => false
  | '\\' :: p :: ps, t =>
      match t with
      | [] => false
      | c :: ts => (p.toLower == c.toLower) && likeMatch ps ts
  | '%' :: ps, t => t.tails.any (fun suf => likeMatch ps suf)
  | '_' :: ps, t =>
      match t with
      | [] => false
      | _ :: ts => likeMatch ps ts
  | p :: ps, t =>
      match t with
      | [] => false
      | c :: ts => (p.toLower == c.toLower) && likeMatch ps ts

/-- text ILIKE pattern, on strings. -/
def ilike (text pattern : String) : Bool :=
  likeMatch pattern.data text.data

/-- JavaScript String.prototype.trim (the guard of the search filter),
modelled on the character list. -/
def jsTrim (s : String) : String :=
  ⟨((s.data.dropWhile Char.isWhitespace).reverse.dropWhile
      Char.isWhitespace).reverse⟩

/-- JavaScript split on the regular expression of one-or-more whitespace:
split at maximal whitespace runs; a leading or trailing run contributes an
empty token, as in JavaScript.  The inWs flag records that the scanner is
inside a whitespace run whose first character already emitted a token. -/
def jsSplitWsAux (inWs : Bool) (cur : List Char) : List Char → List String
  | [] => [⟨cur.reverse⟩]
  | c :: rest =>
      if c.isWhitespace then
        if inWs then jsSplitWsAux true cur rest
        else (⟨cur.reverse⟩ : String) :: jsSplitWsAux true [] rest
      else jsSplitWsAux false (c :: cur) rest

/-- Tokenization of the search string, `search.split(whitespace-run)`. -/
def jsSplitWs (s : String) : List String :=
  jsSplitWsAux false [] s.data

/-- One condition of the WHERE clause listPublic assembles. -/
inductive SqlCond : Type where
  | isPublicTrue
  | typeAny (types : List String)
  | ilikePat (pattern : String)
deriving DecidableEq, Repr

/-- Evaluation of one WHERE condition at a row: is_public = true;
(content info type) = ANY(types); (title, a space, author) ILIKE pattern. -/
def evalCond (row : PuzzleRow) : SqlCond → Bool
  | .isPublicTrue => row.isPublic
  | .typeAny ts => ts.contains row.ptype
  | .ilikePat pat => ilike (row.title ++ " " ++ row.author) pat

/-- The WHERE conditions listPublic builds: is_public always; the type
filter when sizeFilter is non-empty; and, when the trimmed search is
non-empty, one ILIKE condition per whitespace token of the search, the
token wrapped in percents. -/
def buildConds (sizeFilter : List String) (nameOrTitleFilter : String) :
    List SqlCond :=
  [SqlCond.isPublicTrue]
  ++ (if sizeFilter.isEmpty then [] else [SqlCond.typeAny sizeFilter])
  ++ (if jsTrim nameOrTitleFilter == "" then []
      else (jsSplitWs nameOrTitleFilter).map
        (fun tok => SqlCond.ilikePat ("%" ++ tok ++ "%")))

/-- ORDER BY pid_numeric DESC NULLS LAST on the nullable TEXT key:
descending in the character-list order, null rows after all non-null rows. -/
def textDescNullsLast (a b : Option String) : Prop :=
  match a, b with
  | some x, some y => y.data ≤ x.data
  | some _, none => True
  | none, some _ => False
  | none, none => True

instance : DecidableRel textDescNullsLast := fun a b => by
  unfold textDescNullsLast
  cases a <;> cases b <;> infer_instance

/-- Row ordering of the listPublic query, reading only pid_numeric. -/
def pidNumericDescNullsLast (a b : PuzzleRow) : Prop :=
  textDescNullsLast a.pidNumeric b.pidNumeric

instance : DecidableRel pidNumericDescNullsLast := fun a b => by
  unfold pidNumericDescNullsLast; infer_instance

/-- Embeds PuzzleRepository.listPublic: filter by the assembled WHERE
conditions, sort by pid_numeric DESC NULLS LAST, then OFFSET and LIMIT. -/
def listPublic (rows : List PuzzleRow) (sizeFilter : List String)
    (nameOrTitleFilter : String) (limit offset : Nat) : List PuzzleRow :=
  let conds := buildConds sizeFilter nameOrTitleFilter
  ((((rows.filter (fun r => conds.all (evalCond r))).insertionSort
      pidNumericDescNullsLast).drop offset).take limit)

/-- Substring test: the needle occurs as a contiguous run of the haystack
(the callers below pass both sides already lowered). -/
def containsSub : List Char → List Char → Bool
  | n, [] => n.isEmpty
  | n, c :: t => n.isPrefixOf (c :: t) || containsSub n t

/-- Scanner for specTokens: collect maximal non-empty runs of non-whitespace
characters. -/
def specTokensAux (cur : List Char) : List Char → List String
  | [] => if cur.isEmpty then [] else [⟨cur.reverse⟩]
  | c :: rest =>
      if c.isWhitespace then
        if cur.isEmpty then specTokensAux [] rest
        else (⟨cur.reverse⟩ : String) :: specTokensAux [] rest
      else specTokensAux (c :: cur) rest

/-- Modelled from the spec text for C8 (refinement side): the whitespace
separated tokens of the search string (maximal non-empty runs of
non-whitespace characters). -/
def specTokens (s : String) : List String :=
  specTokensAux [] s.data

/-- Modelled from the spec text for C8 (refinement side): every
whitespace-separated token of the search matches case-insensitively as a
substring of title, a space, and author. -/
def specSearchMatches (search : String) (row : PuzzleRow) : Bool :=
  (specTokens search).all (fun tok =>
    containsSub (lowerStr tok).data
      (lowerStr (row.title ++ " " ++ row.author)).data)

/-- Embeds PuzzleService.extractNumericPid: the regular expression
match of one-or-more leading digits captures the maximal leading digit run;
null when the pid does not start with a digit. -/
def extractNumericPid (pid : String) : Option String :=
  let ds := pid.data.takeWhile Char.isDigit
  if ds.isEmpty then none else some ⟨ds⟩

/-- Modelled from the spec text for C10 (refinement side): the maximal
leading run of decimal digits of pid when pid starts with a digit, and null
otherwise. -/
def specLeadingDigits (pid : String) : Option String :=
  match pid.data with
  | [] => none
  | c :: _ =>
      if c.isDigit then some ⟨pid.data.takeWhile Char.isDigit⟩ else none

/-- Embeds the row PuzzleService.createPuzzle inserts (id and, when the
request carries no pid, the pid itself come from randomUUID, passed here as
arguments; uploadedAt is the clock reading). -/
def createPuzzle (id pid : String) (isPublic : Bool)
    (title author ptype : String) : PuzzleRow :=
  { id := id, pid := pid, pidNumeric := extractNumericPid pid,
    isPublic := isPublic, timesSolved := 0,
    title := title, author := author, ptype := ptype }

/-! ## Concrete inputs used by the evaluations below -/

/-- Failing input for C3: a create event for a 1 by 1 puzzle followed by a
cell_fill writing "A" at (0, 0). -/
def c3events : List GameEvent :=
  [.create 1000 "p1" [[{}]] [["A"]], .cellFill 1100 0 0 "A"]

/-- Counterexample input for C4: create at 1000, clock start at 1500, clock
pause at 2200, neither clock_update carrying a totalTime field. -/
def c4events : List GameEvent :=
  [.create 1000 "p1" [[{}]] [["A"]],
   .clockUpdate 1500 .start none,
   .clockUpdate 2200 .pause none]

instance : IsTotal PuzzleRow pidNumericDescNullsLast := by
  constructor
  intro a b
  unfold pidNumericDescNullsLast textDescNullsLast
  cases a.pidNumeric <;> cases b.pidNumeric <;> simp
  rename_i x y
  exact le_total y.data x.data

instance : IsTrans PuzzleRow pidNumericDescNullsLast := by
  constructor
  intro a b c hab hbc
  unfold pidNumericDescNullsLast at *
  revert hab hbc
  generalize a.pidNumeric = x
  generalize b.pidNumeric = y
  generalize c.pidNumeric = z
  intro hab hbc
  unfold textDescNullsLast at *
  cases x <;> cases y <;> cases z <;> simp at *
  exact le_trans hbc hab

/-- Counterexample row for C8: a public puzzle whose title contains "axd". -/
def c8row : PuzzleRow :=
  { id := "1", pid := "1", pidNumeric := some "1", isPublic := true,
    timesSolved := 0, title := "axd", author := "y", ptype := "Daily Puzzle" }

/-- Initial store for the C1 race: no solve rows, puzzle p1 with
times_solved 0. -/
def c1db : SolveStore := { solves := [], timesSolved := [("p1", 0)] }

/-- First of two concurrent RecordSolve("p1", "g1", 42) transactions: it
checks and commits against the same store. -/
def c1s1 : SolveStore := recordSolveTxn c1db c1db "id1" "p1" "g1" 5000 42 0 0

/-- Second concurrent transaction: under READ COMMITTED its existence check
ran before the first transaction committed (so it read c1db), while its
commit applies to the store the first transaction produced. -/
def c1s2 : SolveStore := recordSolveTxn c1db c1s1 "id2" "p1" "g1" 5001 42 0 0


/-! ## Theorems -/

/-! ### C9: sentinel timestamp substitution -/

theorem assignTimestampArr_eq_map (now : Int) (xs : List SVal) :
    assignTimestampArr now xs = xs.map (assignTimestamp now) := by
  induction xs with
  | nil => simp [assignTimestampArr]
  | cons x xs ih => simp [assignTimestampArr, ih]

theorem assignTimestampFields_eq_map (now : Int) (fs : List (String × SVal)) :
    assignTimestampFields now fs =
      fs.map (fun kv => (kv.1, assignTimestamp now kv.2)) := by
  induction fs with
  | nil => simp [assignTimestampFields]
  | cons kv fs ih =>
      obtain ⟨k, v⟩ := kv
      simp [assignTimestampFields, ih]

theorem svalSpecReplaceArr_eq_map (now : Int) (xs : List SVal) :
    svalSpecReplaceArr now xs = xs.map (svalSpecReplace now) := by
  induction xs with
  | nil => simp [svalSpecReplaceArr]
  | cons x xs ih => simp [svalSpecReplaceArr, ih]

theorem svalSpecReplaceFields_eq_map (now : Int) (fs : List (String × SVal)) :
    svalSpecReplaceFields now fs =
      fs.map (fun kv => (kv.1, svalSpecReplace now kv.2)) := by
  induction fs with
  | nil => simp [svalSpecReplaceFields]
  | cons kv fs ih =>
      obtain ⟨k, v⟩ := kv
      simp [svalSpecReplaceFields, ih]

theorem svalHasSentinelArr_eq_any (xs : List SVal) :
    svalHasSentinelArr xs = xs.any svalHasSentinel := by
  induction xs with
  | nil => simp [svalHasSentinelArr]
  | cons x xs ih => simp [svalHasSentinelArr, ih]

theorem svalHasSentinelFields_eq_any (fs : List (String × SVal)) :
    svalHasSentinelFields fs = fs.any (fun kv => svalHasSentinel kv.2) := by
  induction fs with
  | nil => simp [svalHasSentinelFields]
  | cons kv fs ih =>
      obtain ⟨k, v⟩ := kv
      simp [svalHasSentinelFields, ih]

/-- C9: for every client-sent payload tree, assignTimestamp of
socket-manager.ts replaces every occurrence of an object whose ".sv" field
equals "timestamp" with the server wall-clock milliseconds and changes
nothing else: it agrees with the spec-side replacement everywhere, and a
payload containing no sentinel is returned unchanged. -/
theorem assignTimestamp_spec (now : Int) (t : SVal) :
    assignTimestamp now t = svalSpecReplace now t ∧
    (svalHasSentinel t = false → assignTimestamp now t = t) := by
  refine SVal.recOnMem
    (fun t => assignTimestamp now t = svalSpecReplace now t ∧
      (svalHasSentinel t = false → assignTimestamp now t = t))
    t ?_ ?_ ?_ ?_ ?_ ?_
  · exact ⟨by simp [assignTimestamp, svalSpecReplace],
      fun _ => by simp [assignTimestamp]⟩
  · exact fun b => ⟨by simp [assignTimestamp, svalSpecReplace],
      fun _ => by simp [assignTimestamp]⟩
  · exact fun n => ⟨by simp [assignTimestamp, svalSpecReplace],
      fun _ => by simp [assignTimestamp]⟩
  · exact fun s => ⟨by simp [assignTimestamp, svalSpecReplace],
      fun _ => by simp [assignTimestamp]⟩
  · intro xs ih
    constructor
    · rw [show assignTimestamp now (.arr xs) = .arr (assignTimestampArr now xs)
          from by simp [assignTimestamp],
        show svalSpecReplace now (.arr xs) = .arr (svalSpecReplaceArr now xs)
          from by simp [svalSpecReplace],
        assignTimestampArr_eq_map, svalSpecReplaceArr_eq_map]
      exact congrArg SVal.arr (List.map_congr_left fun x hx => (ih x hx).1)
    · intro h
      rw [show svalHasSentinel (.arr xs) = svalHasSentinelArr xs
          from by simp [svalHasSentinel], svalHasSentinelArr_eq_any] at h
      rw [show assignTimestamp now (.arr xs) = .arr (assignTimestampArr now xs)
          from by simp [assignTimestamp], assignTimestampArr_eq_map]
      refine congrArg SVal.arr ?_
      have h2 : ∀ x ∈ xs, svalHasSentinel x = false := by
        intro x hx
        have := List.any_eq_false.mp h x hx
        simpa using this
      calc xs.map (assignTimestamp now)
          = xs.map id := List.map_congr_left fun x hx => (ih x hx).2 (h2 x hx)
        _ = xs := List.map_id xs
  · intro fs ih
    by_cases hs : isTimestampSentinel fs
    · constructor
      · simp [assignTimestamp, svalSpecReplace, hs]
      · intro h
        rw [show svalHasSentinel (.obj fs)
              = (isTimestampSentinel fs || svalHasSentinelFields fs)
            from by simp [svalHasSentinel]] at h
        simp [hs] at h
    · constructor
      · rw [show assignTimestamp now (.obj fs)
              = .obj (assignTimestampFields now fs)
            from by simp [assignTimestamp, hs],
          show svalSpecReplace now (.obj fs)
              = .obj (svalSpecReplaceFields now fs)
            from by simp [svalSpecReplace, hs],
          assignTimestampFields_eq_map, svalSpecReplaceFields_eq_map]
        exact congrArg SVal.obj
          (List.map_congr_left fun kv hkv => by rw [(ih kv hkv).1])
      · intro h
        rw [show svalHasSentinel (.obj fs)
              = (isTimestampSentinel fs || svalHasSentinelFields fs)
            from by simp [svalHasSentinel],
          svalHasSentinelFields_eq_any] at h
        have h2 : ∀ kv ∈ fs, svalHasSentinel kv.2 = false := by
          intro kv hkv
          have h3 := Bool.or_eq_false_iff.mp h
          have := List.any_eq_false.mp h3.2 kv hkv
          simpa using this
        rw [show assignTimestamp now (.obj fs)
              = .obj (assignTimestampFields now fs)
            from by simp [assignTimestamp, hs],
          assignTimestampFields_eq_map]
        refine congrArg SVal.obj ?_
        calc fs.map (fun kv => (kv.1, assignTimestamp now kv.2))
            = fs.map id := List.map_congr_left fun kv hkv => by
                rw [(ih kv hkv).2 (h2 kv hkv)]
                rfl
          _ = fs := List.map_id fs

/-- C9 witness: the no-sentinel hypothesis discharged at a concrete payload. -/
theorem assignTimestamp_spec_witness :
    svalHasSentinel (SVal.obj [("x", SVal.num 1)]) = false ∧
    assignTimestamp 7 (SVal.obj [("x", SVal.num 1)]) =
      SVal.obj [("x", SVal.num 1)] := by
  have h : svalHasSentinel (SVal.obj [("x", SVal.num 1)]) = false := by
    simp [svalHasSentinel, svalHasSentinelFields, isTimestampSentinel,
      lookupField]
  exact ⟨h, (assignTimestamp_spec 7 (SVal.obj [("x", SVal.num 1)])).2 h⟩

/-! ### C3: cell_fill and the game projection -/

/-- C3 evaluation at the failing input: the projector of game.service.ts has
no case for cell_fill (its event loop only handles puzzle_solved,
chat_message and clock_update), so after a cell_fill of "A" at (0, 0) the
projected grid cell still has no value -- the spec says grid[0][0].value
should equal "A", the value of the last cell_fill at that cell. -/
theorem cellFill_ignored_at_failing_input :
    ((reconstructGameState "g1" c3events).map
      (fun s => ((s.grid.getD 0 []).getD 0 {}).value)) = some none ∧
    ((reconstructGameState "g1" c3events).map
      (fun s => ((s.grid.getD 0 []).getD 0 {}).value)) ≠ some (some "A") := by
  constructor
  · decide
  · decide

/-! ### C4: the clock state machine -/

/-- C4 counterexample: pausing at 2200 while the clock runs since 1500 leaves
totalTime at 0 -- the projector never adds ts minus lastUpdated (nor does it
ever move lastUpdated off the create timestamp), so totalTime did not
increase by 2200 - 1500 = 700 as the claim requires. -/
theorem clock_pause_counterexample :
    ((reconstructGameState "g1" c4events).map
      (fun s => (s.clock.paused, s.clock.totalTime, s.clock.lastUpdated))) =
      some (true, 0, 1000) ∧
    (0 : Int) ≠ 2200 - 1500 := by
  constructor
  · decide
  · decide

/-- C4 amended: a clock_update sets paused (false for start and resume, true
for pause) and overwrites totalTime with the totalTime field of the event
when that field is present, leaving totalTime unchanged otherwise;
lastUpdated is never written.  A redundant start while the clock is already
running is a no-op exactly when the event carries no totalTime field. -/
theorem clock_update_amended (s : GameState) (ts : Int) (tOpt : Option Int) :
    (applyGameEvent s (.clockUpdate ts .pause tOpt) =
      { s with clock :=
          { s.clock with
            paused := true,
            totalTime := tOpt.getD s.clock.totalTime } }) ∧
    (applyGameEvent s (.clockUpdate ts .start tOpt) =
      { s with clock :=
          { s.clock with
            paused := false,
            totalTime := tOpt.getD s.clock.totalTime } }) ∧
    (applyGameEvent s (.clockUpdate ts .resume tOpt) =
      { s with clock :=
          { s.clock with
            paused := false,
            totalTime := tOpt.getD s.clock.totalTime } }) ∧
    (s.clock.paused = false →
      applyGameEvent s (.clockUpdate ts .start none) = s) := by
  refine ⟨?_, ?_, ?_, ?_⟩
  · cases tOpt <;> simp [applyGameEvent]
  · cases tOpt <;> simp [applyGameEvent]
  · cases tOpt <;> simp [applyGameEvent]
  · intro h
    simp only [applyGameEvent]
    obtain ⟨gid, pid, grid, sol, solved, clock, msgs⟩ := s
    obtain ⟨lu, tt, ttt, p⟩ := clock
    simp only at h
    simp [h]

/-- C4 witness: the redundant-start hypothesis discharged at a concrete
running state. -/
theorem clock_update_amended_witness :
    (({ gid := "g", pid := "p", grid := [], solution := [], solved := false,
        clock := ⟨0, 0, 0, false⟩, messages := [] } : GameState).clock.paused
      = false) ∧
    applyGameEvent
      { gid := "g", pid := "p", grid := [], solution := [], solved := false,
        clock := ⟨0, 0, 0, false⟩, messages := [] }
      (.clockUpdate 5 .start none) =
      { gid := "g", pid := "p", grid := [], solution := [], solved := false,
        clock := ⟨0, 0, 0, false⟩, messages := [] } :=
  ⟨rfl,
   (clock_update_amended
     { gid := "g", pid := "p", grid := [], solution := [], solved := false,
       clock := ⟨0, 0, 0, false⟩, messages := [] } 5 (some 7)).2.2.2 rfl⟩

/-! ### C7: the room projection -/

/-- C7 counterexample: a chat_message leaves the projected room state
completely unchanged -- reconstructRoomState of room.service.ts has no
chat_message case, and its RoomState (rid, users, settings) carries no
message list for anything to be appended to.  The claim says chat_message
appends to the room message list. -/
theorem chat_message_ignored_counterexample :
    reconstructRoomState "r1"
        [.userJoin 5 "u1" "Ann", .chatMessage 6 "u1" "Ann" "hello"] =
      reconstructRoomState "r1" [.userJoin 5 "u1" "Ann"] ∧
    reconstructRoomState "r1"
        [.userJoin 5 "u1" "Ann", .chatMessage 6 "u1" "Ann" "hello"] =
      { rid := "r1", users := [⟨"u1", "Ann", 5⟩], settings := [] } := by
  constructor
  · decide
  · decide

/-- C7 amended: the room projection maintains a user map where user_join
upserts the user with display name and joined-at timestamp, user_leave
deletes the user, and room_settings_update spread-merges the event settings
into the accumulated settings; chat_message leaves the room state unchanged
(the projected RoomState has no message list). -/
theorem reconstructRoomState_amended (rid : String) (es : List RoomEvent)
    (ts : Int) (uid dn msg : String) (ps : List (String × String)) :
    roomAcc (es ++ [.userJoin ts uid dn]) =
      (mapSet (roomAcc es).1 uid ⟨uid, dn, ts⟩, (roomAcc es).2) ∧
    roomAcc (es ++ [.userLeave ts uid]) =
      (mapDelete (roomAcc es).1 uid, (roomAcc es).2) ∧
    roomAcc (es ++ [.roomSettingsUpdate ts ps]) =
      ((roomAcc es).1, objMerge (roomAcc es).2 ps) ∧
    reconstructRoomState rid (es ++ [.chatMessage ts uid dn msg]) =
      reconstructRoomState rid es := by
  refine ⟨?_, ?_, ?_, ?_⟩
  · simp [roomAcc, List.foldl_append, roomStep]
  · simp [roomAcc, List.foldl_append, roomStep]
  · simp [roomAcc, List.foldl_append, roomStep]
  · simp [reconstructRoomState, roomAcc, List.foldl_append, roomStep]

/-! ### C6: distinct revealed and checked cells -/

theorem toFinset_insertKey (l : List (Nat × Nat)) (k : Nat × Nat) :
    (insertKey l k).toFinset = insert k l.toFinset := by
  unfold insertKey
  split
  · rename_i h
    rw [Finset.insert_eq_self.mpr (List.mem_toFinset.mpr h)]
  · simp [List.toFinset_append, Finset.insert_eq, Finset.union_comm]

theorem nodup_insertKey (l : List (Nat × Nat)) (k : Nat × Nat)
    (h : l.Nodup) : (insertKey l k).Nodup := by
  unfold insertKey
  split
  · exact h
  · rename_i hk
    simp [List.nodup_append, h, hk]

theorem foldl_insertKey_toFinset (ks : List (Nat × Nat)) :
    ∀ l, (ks.foldl insertKey l).toFinset = l.toFinset ∪ ks.toFinset := by
  induction ks with
  | nil => simp
  | cons k ks ih =>
      intro l
      rw [List.foldl_cons, ih, toFinset_insertKey]
      ext x
      simp
      try tauto

theorem foldl_insertKey_nodup (ks : List (Nat × Nat)) :
    ∀ l, l.Nodup → (ks.foldl insertKey l).Nodup := by
  induction ks with
  | nil => exact fun l h => h
  | cons k ks ih =>
      intro l h
      exact ih _ (nodup_insertKey l k h)

theorem squareCountsAcc_fst (es : List GameEvent) :
    ∀ rev chk, (squareCountsAcc rev chk es).1 =
      ((es.map revealCellsOf).flatten).foldl insertKey rev := by
  induction es with
  | nil => intro rev chk; simp [squareCountsAcc]
  | cons e es ih =>
      intro rev chk
      cases e <;>
        simp [squareCountsAcc, revealCellsOf, List.foldl_append, ih]

theorem squareCountsAcc_snd (es : List GameEvent) :
    ∀ rev chk, (squareCountsAcc rev chk es).2 =
      ((es.map checkCellsOf).flatten).foldl insertKey chk := by
  induction es with
  | nil => intro rev chk; simp [squareCountsAcc]
  | cons e es ih =>
      intro rev chk
      cases e <;>
        simp [squareCountsAcc, checkCellsOf, List.foldl_append, ih]

/-- C6: the revealed and checked counts computed for a solve record equal the
cardinalities of the sets of distinct (row, col) cells touched by
cell_reveal and cell_check events respectively, each event contributing its
scope list when present and its single (row, col) otherwise; overlapping
scopes count each cell once. -/
theorem calculateSquareCounts_distinct_cells (events : List GameEvent) :
    calculateSquareCounts events =
      ((specRevealedCells events).card, (specCheckedCells events).card) := by
  have h1 := squareCountsAcc_fst events [] []
  have h2 := squareCountsAcc_snd events [] []
  have hn1 : ((events.map revealCellsOf).flatten.foldl insertKey
      ([] : List (Nat × Nat))).Nodup :=
    foldl_insertKey_nodup _ _ (by simp)
  have hn2 : ((events.map checkCellsOf).flatten.foldl insertKey
      ([] : List (Nat × Nat))).Nodup :=
    foldl_insertKey_nodup _ _ (by simp)
  have ht1 : ((events.map revealCellsOf).flatten.foldl insertKey
      ([] : List (Nat × Nat))).toFinset = specRevealedCells events := by
    rw [foldl_insertKey_toFinset]
    simp [specRevealedCells]
  have ht2 : ((events.map checkCellsOf).flatten.foldl insertKey
      ([] : List (Nat × Nat))).toFinset = specCheckedCells events := by
    rw [foldl_insertKey_toFinset]
    simp [specCheckedCells]
  have hc1 := List.toFinset_card_of_nodup hn1
  have hc2 := List.toFinset_card_of_nodup hn2
  rw [ht1] at hc1
  rw [ht2] at hc2
  simp only [calculateSquareCounts, h1, h2]
  rw [← hc1, ← hc2]

/-! ### C1: solve idempotence under concurrency -/

/-- C1 evaluation at the failing input: two concurrent
RecordSolve("p1", "g1", 42) calls whose existence checks both run before
either commit.  The puzzle_solves schema declares no unique index on
(pid, gid), so both inserts succeed: the store ends with two solve rows for
("p1", "g1") and times_solved incremented twice -- the claim requires
exactly one row and exactly one increment.  (The repository technical
specification prescribes UNIQUE(pid, gid), and the catch branch of
recordSolve relies on such an index existing; the schema omits it.) -/
theorem recordSolve_concurrent_double_insert :
    (c1s2.solves.map (fun r => (r.pid, r.gid))) =
      [("p1", "g1"), ("p1", "g1")] ∧
    c1s2.timesSolved = [("p1", 2)] := by
  constructor
  · decide
  · decide

/-! ### C2: contiguous ascending sequence numbers -/

theorem foldl_max_range' : ∀ (n : Nat) (a : Nat),
    List.foldl max a (List.range' 1 n) = max a n := by
  intro n
  induction n with
  | zero => intro a; simp
  | succ n ih =>
      intro a
      rw [List.range'_concat, List.foldl_append, ih]
      simp only [List.foldl_cons, List.foldl_nil]
      rw [max_assoc]
      congr 1
      rw [Nat.max_eq_right (by omega)]
      omega

theorem getNextSequenceNumber_eq (store : List GameEventRecord) (gid : String)
    (n : Nat)
    (h : ((store.filter (fun r => r.gid == gid)).map
      (fun r => r.sequenceNumber)) = List.range' 1 n) :
    getNextSequenceNumber store gid = n := by
  unfold getNextSequenceNumber
  have h2 := List.foldl_map (fun r : GameEventRecord => r.sequenceNumber)
    (fun m s => max m s) (store.filter (fun r => r.gid == gid)) 0
  rw [← h2, h, foldl_max_range']
  simp

theorem addEvent_seq_inv (store : List GameEventRecord) (data : NewGameEvent)
    (h : ∀ gid, ((store.filter (fun r => r.gid == gid)).map
      (fun r => r.sequenceNumber)) =
      List.range' 1 (store.filter (fun r => r.gid == gid)).length) :
    ∀ gid, (((addEvent store data).filter (fun r => r.gid == gid)).map
      (fun r => r.sequenceNumber)) =
      List.range' 1 ((addEvent store data).filter (fun r => r.gid == gid)).length := by
  intro gid
  unfold addEvent
  rw [List.filter_append]
  by_cases hg : data.gid == gid
  · have hgid : data.gid = gid := by simpa using hg
    have hn := getNextSequenceNumber_eq store data.gid
      ((store.filter (fun r => r.gid == data.gid)).length)
      (h data.gid)
    simp only [List.filter_cons, List.filter_nil, hg, if_true]
    rw [List.map_append, h gid, List.length_append]
    simp only [List.map_cons, List.map_nil, List.length_cons,
      List.length_nil]
    rw [hn, hgid]
    rw [List.range'_concat]
    simp
    omega
  · simp only [List.filter_cons, List.filter_nil, hg]
    simp only [Bool.false_eq_true, reduceIte]
    simp only [List.append_nil]
    exact h gid

theorem applyAppends_seq_inv (reqs : List NewGameEvent) :
    ∀ store,
      (∀ gid, ((store.filter (fun r => r.gid == gid)).map
        (fun r => r.sequenceNumber)) =
        List.range' 1 (store.filter (fun r => r.gid == gid)).length) →
      ∀ gid, (((applyAppends store reqs).filter (fun r => r.gid == gid)).map
        (fun r => r.sequenceNumber)) =
        List.range' 1
          ((applyAppends store reqs).filter (fun r => r.gid == gid)).length := by
  induction reqs with
  | nil => intro store h; exact h
  | cons req reqs ih =>
      intro store h
      exact ih (addEvent store req) (addEvent_seq_inv store req h)

/-- C2: after any series of appends starting from the empty store, the
persisted sequence numbers of every stream form the contiguous prefix
1..N in insertion order (no gaps, no duplicates), and reading the stream
back ordered by sequence number returns the rows unpermuted, with sequence
numbers 1, 2, ..., N ascending. -/
theorem gameEvents_seq_contiguous_ascending (reqs : List NewGameEvent)
    (gid : String) :
    (((applyAppends [] reqs).filter (fun r => r.gid == gid)).map
      (fun r => r.sequenceNumber)) =
      List.range' 1
        ((applyAppends [] reqs).filter (fun r => r.gid == gid)).length ∧
    getEventsWithSequence (applyAppends [] reqs) gid =
      (applyAppends [] reqs).filter (fun r => r.gid == gid) ∧
    ((getEventsWithSequence (applyAppends [] reqs) gid).map
      (fun r => r.sequenceNumber)) =
      List.range' 1
        ((applyAppends [] reqs).filter (fun r => r.gid == gid)).length := by
  have h := applyAppends_seq_inv reqs [] (by intro g; simp) gid
  have hsorted : List.Sorted seqLe
      ((applyAppends [] reqs).filter (fun r => r.gid == gid)) := by
    have hp : List.Pairwise (· ≤ ·)
        (((applyAppends [] reqs).filter (fun r => r.gid == gid)).map
          (fun r => r.sequenceNumber)) := by
      rw [h]
      exact List.pairwise_le_range' 1 _
    have hp2 : List.Pairwise
        (fun a b : GameEventRecord => a.sequenceNumber ≤ b.sequenceNumber)
        ((applyAppends [] reqs).filter (fun r => r.gid == gid)) :=
      List.pairwise_map.mp hp
    exact hp2
  have heq : getEventsWithSequence (applyAppends [] reqs) gid =
      (applyAppends [] reqs).filter (fun r => r.gid == gid) :=
    List.Sorted.insertionSort_eq hsorted
  exact ⟨h, heq, by rw [heq]; exact h⟩

/-! ### C5: persist-then-broadcast -/

/-- C5: the socket pipeline never broadcasts an event that was not first
persisted.  When the repository append fails (store unavailable), the call
surfaces the error, the store is unchanged and nothing is emitted; when it
succeeds, exactly one frame is emitted, and its payload is exactly the
sentinel-substituted payload that was appended to the store by the
preceding await.  Both the game and the room paths are covered. -/
theorem persist_before_broadcast (now : Int) (store : List GameEventRecord)
    (rstore : List RoomEventRecord) (gid rid : String) (gev rev : SVal) :
    socketAddGameEvent false now store gid gev = (store, [], true) ∧
    socketAddGameEvent true now store gid gev =
      (addEvent store
        { gid := gid,
          eventType := (svalStrField (assignTimestamp now gev) "type").getD "",
          eventPayload := assignTimestamp now gev,
          userId := svalStrField (assignTimestamp now gev) "userId",
          timestamp := (svalNumField (assignTimestamp now gev) "timestamp").getD 0,
          version := 1 },
       [.gameEvent gid (assignTimestamp now gev)], false) ∧
    socketAddRoomEvent false now rstore rid rev = (rstore, [], true) ∧
    socketAddRoomEvent true now rstore rid rev =
      (addRoomEventRecord rstore rid
        ((svalStrField (assignTimestamp now rev) "type").getD "")
        (assignTimestamp now rev)
        (svalStrField (assignTimestamp now rev) "userId")
        ((svalNumField (assignTimestamp now rev) "timestamp").getD 0),
       [.roomEvent rid (assignTimestamp now rev)], false) := by
  exact ⟨rfl, rfl, rfl, rfl⟩

/-! ### C10: the numeric pid prefix -/

/-- C10: createPuzzle stores pid_numeric computed by extractNumericPid;
extractNumericPid returns the maximal leading run of decimal digits of the
pid when the pid starts with a digit and null otherwise; and the public
listing order pidNumericDescNullsLast reads nothing but that stored field. -/
theorem extractNumericPid_spec (id pid title author ptype : String)
    (isPub : Bool) :
    (createPuzzle id pid isPub title author ptype).pidNumeric =
      extractNumericPid pid ∧
    extractNumericPid pid = specLeadingDigits pid ∧
    (∀ a b : PuzzleRow, pidNumericDescNullsLast a b ↔
      textDescNullsLast a.pidNumeric b.pidNumeric) := by
  refine ⟨rfl, ?_, fun a b => Iff.rfl⟩
  unfold extractNumericPid specLeadingDigits
  cases hd : pid.data with
  | nil => simp [hd]
  | cons c rest =>
      by_cases hc : c.isDigit
      · simp [hd, hc, List.takeWhile_cons]
      · simp [hd, hc, List.takeWhile_cons]

/-! ### C8: public listing with search -/

theorem isPrefixOf_nil_eq (n : List Char) : n.isPrefixOf [] = n.isEmpty := by
  cases n <;> rfl

theorem containsSub_eq_tails_any (n : List Char) : ∀ h : List Char,
    containsSub n h = h.tails.any (fun s => n.isPrefixOf s) := by
  intro h
  induction h with
  | nil => simp [containsSub, isPrefixOf_nil_eq]
  | cons c t ih => simp [containsSub, ih]

theorem tails_any_isEmpty (t : List Char) :
    (t.tails.any (fun s => s.isEmpty)) = true := by
  induction t with
  | nil => simp
  | cons c t ih => simp [ih]

theorem likeMatch_nil (t : List Char) : likeMatch [] t = t.isEmpty := by
  cases t <;> rfl

theorem likeMatch_percent (ps : List Char) (t : List Char) :
    likeMatch ('%' :: ps) t = t.tails.any (fun suf => likeMatch ps suf) := by
  cases t <;> rfl

theorem likeMatch_plain_cons (c : Char) (ps : List Char) (t : List Char)
    (hp : c ≠ '%') (hu : c ≠ '_') (he : c ≠ '\\') :
    likeMatch (c :: ps) t =
      match t with
      | [] => false
      | d :: ts => (c.toLower == d.toLower) && likeMatch ps ts := by
  rw [likeMatch.eq_def]
  split
  all_goals
    first
      | (rename_i h
         exact absurd h (List.cons_ne_nil c ps))
      | (rename_i h
         injection h with h1 h2
         first
           | exact absurd h1 he
           | exact absurd h1 hp
           | exact absurd h1 hu
           | (subst h1
              subst h2
              rfl))

theorem likeMatch_plain_percent : ∀ (p : List Char),
    (∀ c ∈ p, c ≠ '%' ∧ c ≠ '_' ∧ c ≠ '\\') → ∀ t,
    likeMatch (p ++ ['%']) t =
      (p.map Char.toLower).isPrefixOf (t.map Char.toLower) := by
  intro p
  induction p with
  | nil =>
      intro _ t
      simp only [List.nil_append, List.map_nil]
      rw [show ('%' :: ([] : List Char)) = ['%'] from rfl] at *
      rw [likeMatch_percent]
      have h1 : (fun suf => likeMatch [] suf) =
          (fun suf : List Char => suf.isEmpty) :=
        funext fun suf => likeMatch_nil suf
      rw [h1, tails_any_isEmpty]
      simp [List.isPrefixOf]
  | cons c p ih =>
      intro hw t
      have hc := hw c (by simp)
      have hw2 : ∀ d ∈ p, d ≠ '%' ∧ d ≠ '_' ∧ d ≠ '\\' :=
        fun d hd => hw d (by simp [hd])
      rw [List.cons_append,
        likeMatch_plain_cons c (p ++ ['%']) t hc.1 hc.2.1 hc.2.2]
      cases t with
      | nil => simp [List.isPrefixOf]
      | cons d ts =>
          simp only [List.map_cons, List.isPrefixOf]
          rw [ih hw2 ts]

theorem ilike_substring_of_wildcard_free (text tok : String)
    (hw : ∀ c ∈ tok.data, c ≠ '%' ∧ c ≠ '_' ∧ c ≠ '\\') :
    ilike text ("%" ++ tok ++ "%") =
      containsSub (lowerStr tok).data (lowerStr text).data := by
  unfold ilike lowerStr
  have hpat : ("%" ++ tok ++ "%").data = '%' :: (tok.data ++ ['%']) := by
    simp [String.data_append]
  rw [hpat, likeMatch_percent]
  have h1 : (fun suf => likeMatch (tok.data ++ ['%']) suf) =
      (fun suf : List Char =>
        (tok.data.map Char.toLower).isPrefixOf (suf.map Char.toLower)) :=
    funext fun suf => likeMatch_plain_percent tok.data hw suf
  rw [h1]
  rw [containsSub_eq_tails_any, List.map_tails, List.any_map]
  rfl

/-- Escape semantics of the embedded ILIKE: a backslash in a search token
escapes the following character, so the token a-backslash-d builds the
pattern percent-a-backslash-d-percent, which matches the text "ad y"
(the escaped d matches a literal d) although the three-character token is
not a substring of that text. -/
theorem ilike_backslash_escape_eval :
    ilike "ad y" ("%" ++ "a\\d" ++ "%") = true ∧
    containsSub (lowerStr "a\\d").data (lowerStr "ad y").data = false := by
  constructor
  · decide
  · decide

/-- C8 counterexample: SQL ILIKE treats percent and underscore inside a
search token as wildcards, so tokens are not matched as literal substrings.
For the public puzzle c8row (title "axd", author "y") the search "a_d"
builds the pattern percent-a-underscore-d-percent, which matches "axd y"
(underscore matches the x), and listPublic returns the puzzle -- yet "a_d"
is not a substring of "axd y", so the claim says the result should be
empty. -/
theorem listPublic_substring_counterexample :
    listPublic [c8row] [] "a_d" 10 0 = [c8row] ∧
    specSearchMatches "a_d" c8row = false := by
  constructor
  · decide
  · decide

/-- C8 amended: for a search whose trim is non-empty (and no type filter),
listPublic returns exactly the public puzzles for which every whitespace
token of the search matches case-insensitively as an SQL LIKE pattern
(the token wrapped in percents, with percent and underscore acting as
wildcards and backslash escaping the following character) against title, a
space, and author, ordered by pid_numeric descending with nulls last
(limit at least the table size, offset 0); for tokens containing no
percent, no underscore and no backslash the LIKE match is exactly the
case-insensitive substring match of the spec. -/
theorem listPublic_ilike_ordered (rows : List PuzzleRow) (search : String)
    (limit : Nat) (hs : jsTrim search ≠ "") (hl : rows.length ≤ limit) :
    (∀ r, r ∈ listPublic rows [] search limit 0 ↔
      (r ∈ rows ∧ r.isPublic = true ∧
        ∀ tok ∈ jsSplitWs search,
          ilike (r.title ++ " " ++ r.author) ("%" ++ tok ++ "%") = true)) ∧
    List.Pairwise pidNumericDescNullsLast (listPublic rows [] search limit 0) ∧
    (∀ text tok : String, (∀ c ∈ tok.data, c ≠ '%' ∧ c ≠ '_' ∧ c ≠ '\\') →
      ilike text ("%" ++ tok ++ "%") =
        containsSub (lowerStr tok).data (lowerStr text).data) := by
  have hconds : buildConds [] search =
      SqlCond.isPublicTrue ::
        (jsSplitWs search).map
          (fun tok => SqlCond.ilikePat ("%" ++ tok ++ "%")) := by
    unfold buildConds
    have hb : (jsTrim search == "") = false := by
      simp only [beq_eq_false_iff_ne, ne_eq]
      exact hs
    simp [hb]
  have hpred : ∀ r : PuzzleRow,
      ((buildConds [] search).all (evalCond r) = true) ↔
      (r.isPublic = true ∧ ∀ tok ∈ jsSplitWs search,
        ilike (r.title ++ " " ++ r.author) ("%" ++ tok ++ "%") = true) := by
    intro r
    rw [hconds]
    simp [List.all_cons, List.all_map, evalCond, Function.comp]
  have hlen : (rows.filter
      (fun r => (buildConds [] search).all (evalCond r))).length ≤
      rows.length := List.length_filter_le _ _
  have hperm := List.perm_insertionSort pidNumericDescNullsLast
    (rows.filter (fun r => (buildConds [] search).all (evalCond r)))
  have hout : listPublic rows [] search limit 0 =
      (rows.filter
        (fun r => (buildConds [] search).all (evalCond r))).insertionSort
        pidNumericDescNullsLast := by
    unfold listPublic
    simp only [List.drop_zero]
    exact List.take_of_length_le (by rw [hperm.length_eq]; omega)
  refine ⟨?_, ?_, fun text tok hw =>
    ilike_substring_of_wildcard_free text tok hw⟩
  · intro r
    rw [hout, hperm.mem_iff, List.mem_filter]
    constructor
    · intro h
      exact ⟨h.1, (hpred r).mp h.2⟩
    · intro h
      exact ⟨h.1, (hpred r).mpr h.2⟩
  · rw [hout]
    exact List.sorted_insertionSort pidNumericDescNullsLast _

/-- C8 witness: the non-empty-search and limit hypotheses discharged at a
concrete table and search. -/
theorem listPublic_ilike_ordered_witness :
    jsTrim "ax" ≠ "" ∧ ([c8row].length ≤ 5) ∧
    ((∀ r, r ∈ listPublic [c8row] [] "ax" 5 0 ↔
      (r ∈ [c8row] ∧ r.isPublic = true ∧
        ∀ tok ∈ jsSplitWs "ax",
          ilike (r.title ++ " " ++ r.author) ("%" ++ tok ++ "%") = true)) ∧
    List.Pairwise pidNumericDescNullsLast (listPublic [c8row] [] "ax" 5 0) ∧
    (∀ text tok : String, (∀ c ∈ tok.data, c ≠ '%' ∧ c ≠ '_' ∧ c ≠ '\\') →
      ilike text ("%" ++ tok ++ "%") =
        containsSub (lowerStr tok).data (lowerStr text).data)) :=
  ⟨by decide, by decide,
   listPublic_ilike_ordered [c8row] "ax" 5 (by decide) (by decide)⟩
